import Mathlib

/-!
Verification development for the Family-Contest-App backend.

Shallow embedding of the contest lifecycle and voting engine of
src/backend/server.js: the phase state machine (updateContestPhase,
lines 123-143), the lazy contest read (getContestWithPhase, lines
145-149), the entry listing with its per-phase visibility projection
(lines 249-310), entry creation (lines 313-353), vote casting and its
ballot validation (lines 356-415), the voter ballot read (lines
418-436) and the admin routes (lines 439-565).

Modelling conventions: SQLite tables become lists of records held in a
DB structure; time instants (JS Date values) become Int; the per-request
Math.random draws of the voting-phase shuffle become an oracle
ks : Nat -> Int giving the sort key drawn for each list position; the
admin PIN comparison (a sha256 of an external secret, outside the core
per the spec) becomes a pre-verified Boolean pinOk.  Fields the modelled
operations never touch (description, admin_pin_hash) are omitted.
-/

/-- The contest phase column: CHECK(current_phase IN (submission, voting, results)). -/
inductive Phase where
  | submission
  | voting
  | results
deriving DecidableEq, Repr

/-- A row of the contests table (server.js lines 28-38). -/
structure Contest where
  id : Nat
  slug : String
  name : String
  submission_deadline : Int
  voting_deadline : Int
  current_phase : Phase
  created_at : Int
deriving DecidableEq, Repr

/-- A row of the entries table (server.js lines 40-48). -/
structure Entry where
  id : Nat
  contest_id : Nat
  name : String
  image_filename : String
  created_at : Int
deriving DecidableEq, Repr

/-- A row of the votes table (server.js lines 50-61). -/
structure Vote where
  contest_id : Nat
  voter_id : String
  entry_id : Nat
  rank : Int
deriving DecidableEq, Repr

/-- The persistent store: the three tables. -/
structure DB where
  contests : List Contest
  entries : List Entry
  votes : List Vote
deriving DecidableEq, Repr

/-- The pure phase computation of updateContestPhase (lines 128-135): both
rules test the STORED phase, so a contest whose two deadlines have passed
moves from submission straight to results in one call. -/
def resolvePhaseVal (c : Contest) (now : Int) : Phase :=
  let p1 := if c.current_phase = Phase.submission ∧ c.submission_deadline ≤ now
    then Phase.voting else c.current_phase
  if (c.current_phase = Phase.submission ∨ c.current_phase = Phase.voting)
      ∧ c.voting_deadline ≤ now
    then Phase.results else p1

/-- updateContestPhase as a record transformer (its effect on the contest value). -/
def updateContestPhase (c : Contest) (now : Int) : Contest :=
  { c with current_phase := resolvePhaseVal c now }

/-- UPDATE contests SET current_phase = ? WHERE id = ? (line 138). -/
def setPhase (cs : List Contest) (cid : Nat) (p : Phase) : List Contest :=
  cs.map fun x => if x.id == cid then { x with current_phase := p } else x

def persistPhase (db : DB) (cid : Nat) (p : Phase) : DB :=
  { db with contests := setPhase db.contests cid p }

/-- updateContestPhase (lines 123-143) with its persistence side effect:
the new phase is written back only when it differs from the stored one. -/
def updateContestPhaseDB (db : DB) (c : Contest) (now : Int) : Contest × DB :=
  let newPhase := resolvePhaseVal c now
  if newPhase = c.current_phase then (c, db)
  else ({ c with current_phase := newPhase }, persistPhase db c.id newPhase)

/-- SELECT * FROM contests WHERE slug = ? (find? models the unique index). -/
def findContest (db : DB) (slug : String) : Option Contest :=
  db.contests.find? fun c => c.slug == slug

/-- getContestWithPhase (lines 145-149): look the contest up by slug and
resolve its phase lazily, persisting any change. -/
def getContestWithPhase (db : DB) (slug : String) (now : Int) : Option Contest × DB :=
  match findContest db slug with
  | none => (none, db)
  | some c =>
    let r := updateContestPhaseDB db c now
    (some r.1, r.2)

/-- SELECT * FROM entries WHERE contest_id = ? ORDER BY created_at ASC
(line 256), as a stable sort by created_at of the contest's rows. -/
def entriesOf (db : DB) (cid : Nat) : List Entry :=
  List.insertionSort (fun a b : Entry => a.created_at ≤ b.created_at)
    (db.entries.filter fun e => e.contest_id == cid)

/-- GET /api/contests/:slug (lines 228-246): resolve the phase, return the
contest and its entry count. -/
def getContest (db : DB) (slug : String) (now : Int) : Option (Contest × Nat) × DB :=
  match getContestWithPhase db slug now with
  | (none, db1) => (none, db1)
  | (some c, db1) =>
    (some (c, (db1.entries.filter fun e => e.contest_id == c.id).length), db1)

/-- An entry as the voting-phase projection sends it (line 272): the JS
rest-destructuring keeps id, contest_id, image_filename and created_at and
drops name and sortKey, so this record has no submitter-name field at all. -/
structure PublicEntry where
  id : Nat
  contest_id : Nat
  image_filename : String
  created_at : Int
deriving DecidableEq, Repr

def stripName (e : Entry) : PublicEntry :=
  { id := e.id, contest_id := e.contest_id
  , image_filename := e.image_filename, created_at := e.created_at }

/-- entries.map(e => \x7b ...e, sortKey: Math.random() \x7d) (line 270): the
i-th element receives the i-th draw of the random oracle ks. -/
def withKeys (ks : Nat → Int) : Nat → List Entry → List (Entry × Int)
  | _, [] => []
  | i, e :: es => (e, ks i) :: withKeys ks (i + 1) es

/-- The voting-phase projection (lines 267-273): attach the random sort keys,
sort by them (stably, as Array.prototype.sort in Node), drop key and name. -/
def shuffleStrip (es : List Entry) (ks : Nat → Int) : List PublicEntry :=
  (List.insertionSort (fun a b : Entry × Int => a.2 ≤ b.2) (withKeys ks 0 es)).map
    fun p => stripName p.1

/-- Mirror of shuffleStrip acting on already-stripped entries; used to show
the shuffle never reads the submitter name. -/
def withKeysP (ks : Nat → Int) : Nat → List PublicEntry → List (PublicEntry × Int)
  | _, [] => []
  | i, e :: es => (e, ks i) :: withKeysP ks (i + 1) es

def shuffleKeys (ps : List PublicEntry) (ks : Nat → Int) : List PublicEntry :=
  (List.insertionSort (fun a b : PublicEntry × Int => a.2 ≤ b.2) (withKeysP ks 0 ps)).map
    fun p => p.1

/-- COUNT(*) of the votes of one rank for one entry: the GROUP BY rank rows
of lines 279-284 carry exactly these counts. -/
def rankCount (votes : List Vote) (eid : Nat) (r : Int) : Nat :=
  (votes.filter fun v => v.entry_id == eid && v.rank == r).length

/-- The score computation of lines 287-293.  The forEach adds 3, 2 or 1 once
per GROUP BY row, i.e. once per rank value that has at least one vote; the
row's count is stored in the breakdown but never multiplied into the score. -/
def entryScore (votes : List Vote) (eid : Nat) : Nat :=
  (if rankCount votes eid 1 > 0 then 3 else 0)
  + (if rankCount votes eid 2 > 0 then 2 else 0)
  + (if rankCount votes eid 3 > 0 then 1 else 0)

structure Breakdown where
  first : Nat
  second : Nat
  third : Nat
deriving DecidableEq, Repr

/-- `\x7b ...entry, score, voteBreakdown \x7d` of line 295. -/
structure ScoredEntry where
  entry : Entry
  score : Nat
  voteBreakdown : Breakdown
deriving DecidableEq, Repr

def scoreEntry (votes : List Vote) (e : Entry) : ScoredEntry :=
  { entry := e
  , score := entryScore votes e.id
  , voteBreakdown :=
      { first := rankCount votes e.id 1
      , second := rankCount votes e.id 2
      , third := rankCount votes e.id 3 } }

/-- The results-phase tally (lines 276-301): score every entry, then sort by
score descending ((a, b) => b.score - a.score, a stable sort in Node). -/
def tallyEntries (es : List Entry) (votes : List Vote) : List ScoredEntry :=
  List.insertionSort (fun a b : ScoredEntry => b.score ≤ a.score) (es.map (scoreEntry votes))

/-- The three response shapes of GET /api/contests/:slug/entries (lines
262-302): each constructor carries exactly the fields that branch sends. -/
inductive EntriesPayload where
  | submissionView (entries : List Entry) (entryCount : Nat) (phase : Phase)
  | votingView (entries : List PublicEntry) (phase : Phase)
  | resultsView (entries : List ScoredEntry) (phase : Phase)
deriving DecidableEq, Repr

/-- GET /api/contests/:slug/entries (lines 249-310).  The fallback after the
three branches is unreachable since Phase has exactly three values. -/
def listEntries (db : DB) (slug : String) (now : Int) (ks : Nat → Int) :
    Option EntriesPayload × DB :=
  match getContestWithPhase db slug now with
  | (none, db1) => (none, db1)
  | (some c, db1) =>
    match c.current_phase with
    | Phase.submission =>
      (some (EntriesPayload.submissionView [] (entriesOf db1 c.id).length Phase.submission), db1)
    | Phase.voting =>
      (some (EntriesPayload.votingView (shuffleStrip (entriesOf db1 c.id) ks) Phase.voting), db1)
    | Phase.results =>
      (some (EntriesPayload.resultsView (tallyEntries (entriesOf db1 c.id) db1.votes)
        Phase.results), db1)

/-- Every submitter name a payload carries, by shape. -/
def payloadNames : EntriesPayload → List String
  | EntriesPayload.submissionView es _ _ => es.map Entry.name
  | EntriesPayload.votingView _ _ => []
  | EntriesPayload.resultsView es _ => es.map fun s => s.entry.name

/-- Every image reference a payload carries, by shape. -/
def payloadImages : EntriesPayload → List String
  | EntriesPayload.submissionView es _ _ => es.map Entry.image_filename
  | EntriesPayload.votingView es _ => es.map PublicEntry.image_filename
  | EntriesPayload.resultsView es _ => es.map fun s => s.entry.image_filename

inductive EntryError where
  | notFound
  | phaseClosed
  | missingFields
  | duplicateName
deriving DecidableEq, Repr

/-- POST /api/contests/:slug/entries (lines 313-353): phase gate, required
fields, case-insensitive duplicate-name check, insert.  newId models the
AUTOINCREMENT id; now doubles as the created_at timestamp. -/
def createEntry (db : DB) (slug ename image : String) (now : Int) (newId : Nat) :
    Except EntryError Entry × DB :=
  match getContestWithPhase db slug now with
  | (none, db1) => (Except.error EntryError.notFound, db1)
  | (some c, db1) =>
    if c.current_phase ≠ Phase.submission then (Except.error EntryError.phaseClosed, db1)
    else if ename = "" then (Except.error EntryError.missingFields, db1)
    else if db1.entries.any fun e => e.contest_id == c.id && e.name.toLower == ename.toLower
      then (Except.error EntryError.duplicateName, db1)
    else
      let e : Entry :=
        { id := newId, contest_id := c.id, name := ename.trim
        , image_filename := image, created_at := now }
      (Except.ok e, { db1 with entries := db1.entries ++ [e] })

/-- One element of the request body votes array (line 368). -/
structure BallotItem where
  entryId : Nat
  rank : Int
deriving DecidableEq, Repr

inductive VoteError where
  | notFound
  | phaseClosed
  | tooManySelections
  | invalidRank
  | duplicateRank
  | duplicateEntry
  | unknownEntry
deriving DecidableEq, Repr

/-- SELECT id FROM entries WHERE id = ? AND contest_id = ? (line 395). -/
def entryInContest (entries : List Entry) (cid eid : Nat) : Bool :=
  entries.any fun e => e.id == eid && e.contest_id == cid

/-- The per-vote loop of lines 379-399 with its two accumulated Sets: check
rank range, duplicate rank, duplicate entry, then entry membership, in the
order the source checks them. -/
def validateVoteList (entries : List Entry) (cid : Nat) :
    List BallotItem → List Int → List Nat → Option VoteError
  | [], _, _ => none
  | b :: rest, ranks, eids =>
    if b.rank < 1 ∨ b.rank > 3 then some VoteError.invalidRank
    else if b.rank ∈ ranks then some VoteError.duplicateRank
    else if b.entryId ∈ eids then some VoteError.duplicateEntry
    else if ¬ entryInContest entries cid b.entryId = true then some VoteError.unknownEntry
    else validateVoteList entries cid rest (b.rank :: ranks) (b.entryId :: eids)

/-- The whole ballot validation of lines 374-399: the size cap first, then
the per-vote loop. -/
def validateBallot (entries : List Entry) (cid : Nat) (votes : List BallotItem) :
    Option VoteError :=
  if votes.length > 3 then some VoteError.tooManySelections
  else validateVoteList entries cid votes [] []

def toVote (cid : Nat) (voter : String) (b : BallotItem) : Vote :=
  { contest_id := cid, voter_id := voter, entry_id := b.entryId, rank := b.rank }

/-- POST /api/contests/:slug/votes (lines 356-415): resolve phase, gate on
voting, validate, then DELETE the existing ballot of (contest, voter) and
INSERT the new rows. -/
def castVote (db : DB) (slug voter : String) (votes : List BallotItem) (now : Int) :
    Option VoteError × DB :=
  match getContestWithPhase db slug now with
  | (none, db1) => (some VoteError.notFound, db1)
  | (some c, db1) =>
    if c.current_phase ≠ Phase.voting then (some VoteError.phaseClosed, db1)
    else
      match validateBallot db1.entries c.id votes with
      | some e => (some e, db1)
      | none =>
        let kept := db1.votes.filter fun v => !(v.contest_id == c.id && v.voter_id == voter)
        (none, { db1 with votes := kept ++ votes.map (toVote c.id voter) })

/-- GET /api/contests/:slug/votes/:voterId (lines 418-436): resolve phase,
return the stored (entryId, rank) pairs of this contest and voter. -/
def getVoterBallot (db : DB) (slug voter : String) (now : Int) :
    Option (List BallotItem) × DB :=
  match getContestWithPhase db slug now with
  | (none, db1) => (none, db1)
  | (some c, db1) =>
    (some ((db1.votes.filter fun v => v.contest_id == c.id && v.voter_id == voter).map
      fun v => { entryId := v.entry_id, rank := v.rank }), db1)

inductive AdminError where
  | notFound
  | invalidPin
  | invalidDeadlineOrder
  | entryNotFound
deriving DecidableEq, Repr

/-- POST /api/contests/:slug/admin/verify (lines 439-461): plain SELECT by
slug, then the PIN comparison (modelled pre-verified).  No phase resolution. -/
def adminVerify (db : DB) (slug : String) (pinOk : Bool) : Except AdminError Unit × DB :=
  match findContest db slug with
  | none => (Except.error AdminError.notFound, db)
  | some _ =>
    if pinOk then (Except.ok (), db) else (Except.error AdminError.invalidPin, db)

/-- The body of PUT /api/contests/:slug/admin (line 471): each field is
optional; currentPhase arrives as a raw string that is applied only when it
names one of the three phases. -/
structure AdminUpdateReq where
  submissionDeadline : Option Int
  votingDeadline : Option Int
  currentPhase : Option String
deriving DecidableEq, Repr

/-- The includes check of line 492. -/
def phaseOfString : String → Option Phase
  | "submission" => some Phase.submission
  | "voting" => some Phase.voting
  | "results" => some Phase.results
  | _ => none

/-- UPDATE contests SET submission_deadline = ?, voting_deadline = ? WHERE id = ?. -/
def setDeadlines (cs : List Contest) (cid : Nat) (sd vd : Int) : List Contest :=
  cs.map fun x =>
    if x.id == cid then { x with submission_deadline := sd, voting_deadline := vd } else x

/-- Lines 492-494: write the forced phase when supplied and valid, else leave
the record alone. -/
def applyForcedPhase (db : DB) (cid : Nat) : Option String → DB
  | none => db
  | some s =>
    match phaseOfString s with
    | none => db
    | some p => persistPhase db cid p

/-- PUT /api/contests/:slug/admin (lines 464-504): plain SELECT by slug (no
phase resolution), PIN gate, deadline pair validated and written only when
both are supplied, then the optional forced phase. -/
def adminUpdate (db : DB) (slug : String) (pinOk : Bool) (req : AdminUpdateReq) :
    Option AdminError × DB :=
  match findContest db slug with
  | none => (some AdminError.notFound, db)
  | some c =>
    if !pinOk then (some AdminError.invalidPin, db)
    else
      match req.submissionDeadline, req.votingDeadline with
      | some sd, some vd =>
        if vd ≤ sd then (some AdminError.invalidDeadlineOrder, db)
        else
          let db1 := { db with contests := setDeadlines db.contests c.id sd vd }
          (none, applyForcedPhase db1 c.id req.currentPhase)
      | _, _ => (none, applyForcedPhase db c.id req.currentPhase)

/-- DELETE /api/contests/:slug/admin/entries/:entryId (lines 507-543): plain
SELECT by slug, PIN gate, entry lookup, then delete the entry's votes and the
entry.  Contest rows are never touched. -/
def adminDeleteEntry (db : DB) (slug : String) (pinOk : Bool) (eid : Nat) :
    Option AdminError × DB :=
  match findContest db slug with
  | none => (some AdminError.notFound, db)
  | some c =>
    if !pinOk then (some AdminError.invalidPin, db)
    else if !(db.entries.any fun e => e.id == eid && e.contest_id == c.id)
      then (some AdminError.entryNotFound, db)
    else
      (none, { db with
        votes := db.votes.filter fun v => !(v.entry_id == eid)
      , entries := db.entries.filter fun e => !(e.id == eid) })

/-- POST /api/contests/:slug/admin/entries (lines 546-565): plain SELECT by
slug, PIN gate, full entry rows with names, no phase resolution at all. -/
def adminListEntries (db : DB) (slug : String) (pinOk : Bool) :
    Except AdminError (List Entry) × DB :=
  match findContest db slug with
  | none => (Except.error AdminError.notFound, db)
  | some c =>
    if !pinOk then (Except.error AdminError.invalidPin, db)
    else (Except.ok (entriesOf db c.id), db)

/-- Position of a phase in the lifecycle order submission < voting < results. -/
def phaseIdx : Phase → Nat
  | Phase.submission => 0
  | Phase.voting => 1
  | Phase.results => 2

/-- A contest whose stored phase is stale: still submission although both
deadlines (0 and 10) lie far in the past of the probe time 100. -/
def cStale : Contest :=
  { id := 1, slug := "c", name := "Contest", submission_deadline := 0
  , voting_deadline := 10, current_phase := Phase.submission, created_at := 0 }

def eStale : Entry :=
  { id := 1, contest_id := 1, name := "A", image_filename := "a.jpg", created_at := 0 }

def dbStale : DB := { contests := [cStale], entries := [eStale], votes := [] }

/-- A contest sitting inside its voting window at probe time 5. -/
def cOpen : Contest :=
  { id := 1, slug := "c", name := "Contest", submission_deadline := 0
  , voting_deadline := 100, current_phase := Phase.voting, created_at := 0 }

def eOne : Entry :=
  { id := 1, contest_id := 1, name := "A", image_filename := "a.jpg", created_at := 0 }

def eTwo : Entry :=
  { id := 2, contest_id := 1, name := "B", image_filename := "b.jpg", created_at := 1 }

/-- Voting-window store holding a prior ballot of voter alice: entry 2 at rank 2. -/
def dbOpen : DB :=
  { contests := [cOpen], entries := [eOne, eTwo]
  , votes := [{ contest_id := 1, voter_id := "alice", entry_id := 2, rank := 2 }] }

/-- A contest still inside its submission window at probe time 5. -/
def cEarly : Contest :=
  { id := 1, slug := "c", name := "Contest", submission_deadline := 100
  , voting_deadline := 200, current_phase := Phase.submission, created_at := 0 }

def dbEarly : DB := { contests := [cEarly], entries := [eOne], votes := [] }

/-! ## Helper lemmas -/

theorem find?_map_comm {α : Type} (f : α → α) (p : α → Bool)
    (hp : ∀ x, p (f x) = p x) :
    ∀ l : List α, (l.map f).find? p = (l.find? p).map f := by
  intro l
  induction l with
  | nil => rfl
  | cons x xs ih =>
    cases h : p x with
    | false =>
      have hfx : p (f x) = false := by rw [hp x, h]
      rw [List.map_cons, List.find?_cons_of_neg _ (by simp [hfx]),
        List.find?_cons_of_neg _ (by simp [h]), ih]
    | true =>
      have hfx : p (f x) = true := by rw [hp x, h]
      rw [List.map_cons, List.find?_cons_of_pos _ hfx, List.find?_cons_of_pos _ h]
      rfl

theorem setPhase_slug_pred (cid : Nat) (p : Phase) (slug : String) (x : Contest) :
    ((if x.id == cid then { x with current_phase := p } else x).slug == slug)
      = (x.slug == slug) := by
  cases h : x.id == cid <;> simp [h]

theorem findContest_persistPhase (db : DB) (cid : Nat) (p : Phase) (slug : String) :
    findContest (persistPhase db cid p) slug
      = (findContest db slug).map fun x =>
          if x.id == cid then { x with current_phase := p } else x := by
  unfold findContest persistPhase setPhase
  exact find?_map_comm _ _ (setPhase_slug_pred cid p slug) db.contests

theorem getContestWithPhase_found (db : DB) (slug : String) (now : Int) (c : Contest)
    (hf : findContest db slug = some c) :
    getContestWithPhase db slug now
      = (some (updateContestPhase c now), (getContestWithPhase db slug now).2)
    ∧ (getContestWithPhase db slug now).2.entries = db.entries
    ∧ (getContestWithPhase db slug now).2.votes = db.votes
    ∧ findContest (getContestWithPhase db slug now).2 slug
        = some (updateContestPhase c now) := by
  by_cases h : resolvePhaseVal c now = c.current_phase
  · have hg : getContestWithPhase db slug now = (some c, db) := by
      simp only [getContestWithPhase, hf, updateContestPhaseDB]
      rw [if_pos h]
    have heq : updateContestPhase c now = c := by
      unfold updateContestPhase
      rw [h]
    rw [hg, heq]
    exact ⟨rfl, rfl, rfl, hf⟩
  · have hg : getContestWithPhase db slug now
        = (some (updateContestPhase c now),
           persistPhase db c.id (resolvePhaseVal c now)) := by
      simp only [getContestWithPhase, hf, updateContestPhaseDB]
      rw [if_neg h]
      rfl
    rw [hg]
    refine ⟨rfl, rfl, rfl, ?_⟩
    rw [findContest_persistPhase, hf]
    simp [updateContestPhase]

theorem filter_not_filter {α : Type} (p : α → Bool) (l : List α) :
    (l.filter fun a => !(p a)).filter p = [] := by
  induction l with
  | nil => rfl
  | cons x xs ih => cases h : p x <;> simp [List.filter_cons, h, ih]

theorem withKeys_map_fst (ks : Nat → Int) (es : List Entry) :
    ∀ i, (withKeys ks i es).map (fun p => stripName p.1) = es.map stripName := by
  induction es with
  | nil => intro i; rfl
  | cons e es ih => intro i; simp [withKeys, ih]


theorem orderedInsert_map_snd {α β : Type} (g : α → β) (ka : α → Int) (kb : β → Int)
    (hk : ∀ a, kb (g a) = ka a) (a : α) (l : List α) :
    (List.orderedInsert (fun x y => ka x ≤ ka y) a l).map g
      = List.orderedInsert (fun x y => kb x ≤ kb y) (g a) (l.map g) := by
  induction l with
  | nil => rfl
  | cons x xs ih =>
    simp only [List.orderedInsert, List.map_cons]
    by_cases h : ka a ≤ ka x
    · rw [if_pos h, if_pos (by rw [hk a, hk x]; exact h)]
      rfl
    · rw [if_neg h, if_neg (by rw [hk a, hk x]; exact h)]
      rw [List.map_cons, ih]

theorem insertionSort_map_snd {α β : Type} (g : α → β) (ka : α → Int) (kb : β → Int)
    (hk : ∀ a, kb (g a) = ka a) (l : List α) :
    (List.insertionSort (fun x y => ka x ≤ ka y) l).map g
      = List.insertionSort (fun x y => kb x ≤ kb y) (l.map g) := by
  induction l with
  | nil => rfl
  | cons x xs ih =>
    simp only [List.insertionSort, List.map_cons]
    rw [orderedInsert_map_snd g ka kb hk, ih]

theorem withKeys_map_strip (ks : Nat → Int) (es : List Entry) :
    ∀ i, (withKeys ks i es).map (fun p => (stripName p.1, p.2))
      = withKeysP ks i (es.map stripName) := by
  induction es with
  | nil => intro i; rfl
  | cons e es ih => intro i; simp [withKeys, withKeysP, ih]

theorem shuffleStrip_eq_shuffleKeys (es : List Entry) (ks : Nat → Int) :
    shuffleStrip es ks = shuffleKeys (es.map stripName) ks := by
  unfold shuffleStrip shuffleKeys
  have h1 : (fun p : Entry × Int => stripName p.1)
      = (fun q : PublicEntry × Int => q.1) ∘ (fun p => (stripName p.1, p.2)) := rfl
  rw [h1, ← List.map_map]
  rw [insertionSort_map_snd (fun p : Entry × Int => (stripName p.1, p.2))
    (fun p => p.2) (fun q => q.2) (fun _ => rfl)]
  rw [withKeys_map_strip]

theorem withKeys_map_fst_id (ks : Nat → Int) (es : List Entry) :
    ∀ i, (withKeys ks i es).map (fun p => p.1) = es := by
  induction es with
  | nil => intro i; rfl
  | cons e es ih => intro i; simp [withKeys, ih]

theorem shuffleStrip_perm (es : List Entry) (ks : Nat → Int) :
    (shuffleStrip es ks).Perm (es.map stripName) := by
  unfold shuffleStrip
  have h1 : (fun p : Entry × Int => stripName p.1)
      = stripName ∘ (fun p : Entry × Int => p.1) := rfl
  rw [h1, ← List.map_map]
  refine List.Perm.map stripName ?_
  have h2 := (List.perm_insertionSort (fun a b : Entry × Int => a.2 ≤ b.2)
    (withKeys ks 0 es)).map (fun p : Entry × Int => p.1)
  rw [withKeys_map_fst_id ks es 0] at h2
  exact h2

theorem entriesOf_perm (db : DB) (cid : Nat) :
    (entriesOf db cid).Perm (db.entries.filter fun e => e.contest_id == cid) :=
  List.perm_insertionSort _ _

/-- Single resolution never lowers the phase in the lifecycle order. -/
theorem resolve_step_mono (c : Contest) (now : Int) :
    phaseIdx c.current_phase ≤ phaseIdx (updateContestPhase c now).current_phase := by
  unfold updateContestPhase resolvePhaseVal
  cases hc : c.current_phase
  · simp [hc, phaseIdx]
  · by_cases h : c.voting_deadline ≤ now
    · simp [hc, h, phaseIdx]
    · simp [hc, h, phaseIdx]
  · simp [hc, phaseIdx]

theorem entryInContest_iff (entries : List Entry) (cid eid : Nat) :
    entryInContest entries cid eid = true
      ↔ ∃ e ∈ entries, e.id = eid ∧ e.contest_id = cid := by
  simp [entryInContest, List.any_eq_true, Bool.and_eq_true, beq_iff_eq]

theorem validateVoteList_none_iff (entries : List Entry) (cid : Nat) :
    ∀ (l : List BallotItem) (ranks : List Int) (eids : List Nat),
    validateVoteList entries cid l ranks eids = none ↔
      ((∀ b ∈ l, (1 ≤ b.rank ∧ b.rank ≤ 3) ∧ entryInContest entries cid b.entryId = true)
       ∧ (l.map BallotItem.rank).Nodup
       ∧ (l.map BallotItem.rank).Disjoint ranks
       ∧ (l.map BallotItem.entryId).Nodup
       ∧ (l.map BallotItem.entryId).Disjoint eids) := by
  intro l
  induction l with
  | nil =>
    intro ranks eids
    simp [validateVoteList, List.Disjoint]
  | cons b rest ih =>
    intro ranks eids
    simp only [validateVoteList]
    by_cases h1 : b.rank < 1 ∨ b.rank > 3
    · rw [if_pos h1]
      apply iff_of_false (by simp)
      rintro ⟨hall, -⟩
      obtain ⟨⟨ha, hb⟩, -⟩ := hall b (List.mem_cons_self b rest)
      omega
    · rw [if_neg h1]
      push_neg at h1
      by_cases h2 : b.rank ∈ ranks
      · rw [if_pos h2]
        apply iff_of_false (by simp)
        rintro ⟨-, -, hdisj, -, -⟩
        exact hdisj (by simp) h2
      · rw [if_neg h2]
        by_cases h3 : b.entryId ∈ eids
        · rw [if_pos h3]
          apply iff_of_false (by simp)
          rintro ⟨-, -, -, -, hdisj⟩
          exact hdisj (by simp) h3
        · rw [if_neg h3]
          by_cases h4 : entryInContest entries cid b.entryId = true
          · rw [if_neg (not_not_intro h4), ih]
            simp only [List.map_cons, List.nodup_cons, List.disjoint_cons_left,
              List.disjoint_cons_right, List.forall_mem_cons]
            constructor
            · rintro ⟨hall, hnr, ⟨hbr, hdr⟩, hne, hbe, hde⟩
              exact ⟨⟨⟨h1, h4⟩, hall⟩, ⟨hbr, hnr⟩, ⟨h2, hdr⟩, ⟨hbe, hne⟩, ⟨h3, hde⟩⟩
            · rintro ⟨⟨-, hall⟩, ⟨hbr, hnr⟩, ⟨-, hdr⟩, ⟨hbe, hne⟩, ⟨-, hde⟩⟩
              exact ⟨hall, hnr, ⟨hbr, hdr⟩, hne, hbe, hde⟩
          · rw [if_pos h4]
            apply iff_of_false (by simp)
            rintro ⟨hall, -⟩
            exact h4 (hall b (List.mem_cons_self b rest)).2

theorem validateBallot_none_iff (entries : List Entry) (cid : Nat)
    (votes : List BallotItem) :
    validateBallot entries cid votes = none ↔
      (votes.length ≤ 3
       ∧ (∀ b ∈ votes, b.rank = 1 ∨ b.rank = 2 ∨ b.rank = 3)
       ∧ (votes.map BallotItem.rank).Nodup
       ∧ (votes.map BallotItem.entryId).Nodup
       ∧ ∀ b ∈ votes, ∃ e ∈ entries, e.id = b.entryId ∧ e.contest_id = cid) := by
  unfold validateBallot
  by_cases hl : votes.length > 3
  · rw [if_pos hl]
    apply iff_of_false (by simp)
    rintro ⟨h, -⟩
    omega
  · rw [if_neg hl, validateVoteList_none_iff]
    constructor
    · rintro ⟨hall, hnr, -, hne, -⟩
      refine ⟨by omega, ?_, hnr, hne, ?_⟩
      · intro b hb
        obtain ⟨⟨ha, hb2⟩, -⟩ := hall b hb
        omega
      · intro b hb
        exact (entryInContest_iff entries cid b.entryId).mp (hall b hb).2
    · rintro ⟨-, hrange, hnr, hne, hex⟩
      refine ⟨?_, hnr, ?_, hne, ?_⟩
      · intro b hb
        refine ⟨?_, (entryInContest_iff entries cid b.entryId).mpr (hex b hb)⟩
        rcases hrange b hb with h | h | h <;> omega
      · intro a _ hmem
        exact absurd hmem (List.not_mem_nil a)
      · intro a _ hmem
        exact absurd hmem (List.not_mem_nil a)

theorem getContestWithPhase_inv (db : DB) (slug : String) (now : Int) (c : Contest)
    (db1 : DB) (h : getContestWithPhase db slug now = (some c, db1)) :
    findContest db1 slug = some c ∧ db1.entries = db.entries ∧ db1.votes = db.votes := by
  cases hf : findContest db slug with
  | none =>
    unfold getContestWithPhase at h
    rw [hf] at h
    simp at h
  | some c0 =>
    obtain ⟨hg, hent, hvot, hf2⟩ := getContestWithPhase_found db slug now c0 hf
    rw [h] at hg hent hvot hf2
    simp only [Prod.mk.injEq, Option.some.injEq] at hg
    obtain ⟨hc, -⟩ := hg
    rw [← hc] at hf2
    exact ⟨hf2, hent, hvot⟩

theorem replaced_ballot (cid : Nat) (voter : String) (old : List Vote)
    (votes : List BallotItem) :
    (((old.filter fun v => !(v.contest_id == cid && v.voter_id == voter))
        ++ votes.map (toVote cid voter)).filter
      fun v => v.contest_id == cid && v.voter_id == voter).map
      (fun v => BallotItem.mk v.entry_id v.rank) = votes := by
  rw [List.filter_append, filter_not_filter, List.nil_append]
  rw [List.filter_eq_self.mpr ?_]
  · rw [List.map_map]
    have hco : ((fun v : Vote => BallotItem.mk v.entry_id v.rank) ∘ toVote cid voter)
        = fun b : BallotItem => b := rfl
    rw [hco]
    simp
  · intro v hv
    obtain ⟨b, -, hb⟩ := List.mem_map.mp hv
    rw [← hb]
    simp [toVote]

theorem getVoterBallot_eval (db : DB) (slug voter : String) (now : Int) (c : Contest)
    (hf : findContest db slug = some c) :
    (getVoterBallot db slug voter now).1
      = some ((db.votes.filter fun v => v.contest_id == c.id && v.voter_id == voter).map
          fun v => BallotItem.mk v.entry_id v.rank) := by
  obtain ⟨hg, -, hvot, -⟩ := getContestWithPhase_found db slug now c hf
  unfold getVoterBallot
  rcases hX : getContestWithPhase db slug now with ⟨o, d⟩
  rw [hX] at hg hvot
  simp only [Prod.mk.injEq] at hg
  obtain ⟨ho, -⟩ := hg
  subst ho
  have hv2 : d.votes = db.votes := hvot
  simp only [hv2]
  rfl

theorem castVote_voting_eq (db : DB) (slug voter : String) (votes : List BallotItem)
    (now : Int) (c : Contest) (db1 : DB)
    (h : getContestWithPhase db slug now = (some c, db1))
    (hp : c.current_phase = Phase.voting) :
    castVote db slug voter votes now
      = (match validateBallot db1.entries c.id votes with
         | some e => (some e, db1)
         | none => (none, { db1 with votes := (db1.votes.filter fun v => !(v.contest_id == c.id && v.voter_id == voter)) ++ votes.map (toVote c.id voter) })) := by
  simp only [castVote, h, hp, ne_eq, not_true_eq_false, if_false]

theorem getContest_contests (db : DB) (slug : String) (now : Int) :
    (getContest db slug now).2.contests = (getContestWithPhase db slug now).2.contests := by
  unfold getContest
  rcases hX : getContestWithPhase db slug now with ⟨o, d⟩
  cases o <;> rfl

theorem listEntries_contests (db : DB) (slug : String) (now : Int) (ks : Nat → Int) :
    (listEntries db slug now ks).2.contests
      = (getContestWithPhase db slug now).2.contests := by
  unfold listEntries
  rcases hX : getContestWithPhase db slug now with ⟨o, d⟩
  cases o with
  | none => rfl
  | some c =>
    rcases c with ⟨cid, cslug, cname, csd, cvd, cphase, cca⟩
    cases cphase <;> rfl

theorem createEntry_contests (db : DB) (slug ename img : String) (now : Int) (nid : Nat) :
    (createEntry db slug ename img now nid).2.contests
      = (getContestWithPhase db slug now).2.contests := by
  unfold createEntry
  rcases hX : getContestWithPhase db slug now with ⟨o, d⟩
  cases o with
  | none => rfl
  | some c =>
    simp only []
    split
    · rfl
    · split
      · rfl
      · split <;> rfl

theorem castVote_contests (db : DB) (slug voter : String) (votes : List BallotItem)
    (now : Int) :
    (castVote db slug voter votes now).2.contests
      = (getContestWithPhase db slug now).2.contests := by
  unfold castVote
  rcases hX : getContestWithPhase db slug now with ⟨o, d⟩
  cases o with
  | none => rfl
  | some c =>
    simp only []
    split
    · rfl
    · cases hv : validateBallot d.entries c.id votes <;> simp only [hv]

theorem getVoterBallot_contests (db : DB) (slug voter : String) (now : Int) :
    (getVoterBallot db slug voter now).2.contests
      = (getContestWithPhase db slug now).2.contests := by
  unfold getVoterBallot
  rcases hX : getContestWithPhase db slug now with ⟨o, d⟩
  cases o <;> rfl

theorem setDeadlines_map_phase (cs : List Contest) (cid : Nat) (sd vd : Int) :
    (setDeadlines cs cid sd vd).map Contest.current_phase
      = cs.map Contest.current_phase := by
  unfold setDeadlines
  induction cs with
  | nil => rfl
  | cons x xs ih =>
    simp only [List.map_cons, ih]
    by_cases h : (x.id == cid) = true <;> simp [h]

/-! ## Claim theorems -/

/-- C1: the results tally does NOT score 3 per rank-1 vote, 2 per rank-2 vote
and 1 per rank-3 vote summed across voters.  With one entry holding two rank-1
votes from two different voters, the code (entryScore, embedding lines
286-293) yields 3 because it adds the per-rank points once per rank value
present and ignores the COUNT(*) it selected, while the claimed per-vote
formula 3*(rank-1 count) + 2*(rank-2 count) + 1*(rank-3 count) yields 6. -/
theorem C1_score_ignores_counts :
    entryScore
      [{ contest_id := 1, voter_id := "a", entry_id := 1, rank := 1 }
      , { contest_id := 1, voter_id := "b", entry_id := 1, rank := 1 }] 1 = 3
    ∧ 3 * rankCount
        [{ contest_id := 1, voter_id := "a", entry_id := 1, rank := 1 }
        , { contest_id := 1, voter_id := "b", entry_id := 1, rank := 1 }] 1 1
      + 2 * rankCount
        [{ contest_id := 1, voter_id := "a", entry_id := 1, rank := 1 }
        , { contest_id := 1, voter_id := "b", entry_id := 1, rank := 1 }] 1 2
      + 1 * rankCount
        [{ contest_id := 1, voter_id := "a", entry_id := 1, rank := 1 }
        , { contest_id := 1, voter_id := "b", entry_id := 1, rank := 1 }] 1 3 = 6 := by
  constructor <;> rfl

/-- C5: automatic phase resolution is monotone in the lifecycle order
submission < voting < results: across any sequence of resolutions (whatever
the probe times), the stored phase never moves to an earlier phase. -/
theorem C5_phase_monotonic (c : Contest) (times : List Int) :
    phaseIdx c.current_phase
      ≤ phaseIdx ((times.foldl updateContestPhase c).current_phase) := by
  induction times generalizing c with
  | nil => exact Nat.le_refl _
  | cons t ts ih => exact Nat.le_trans (resolve_step_mono c t) (ih (updateContestPhase c t))

/-- C6: a contest stored in submission whose two deadlines both lie at or
before now jumps directly to results in a single resolution: both transition
rules of updateContestPhase fire in the same call. -/
theorem C6_double_deadline_jump (c : Contest) (now : Int)
    (h1 : c.current_phase = Phase.submission)
    (h2 : c.submission_deadline ≤ now)
    (h3 : c.voting_deadline ≤ now) :
    (updateContestPhase c now).current_phase = Phase.results := by
  unfold updateContestPhase resolvePhaseVal
  simp [h1, h2, h3]

/-- C6 witness: the stale contest (deadlines 0 and 10, stored submission)
resolved at time 100 lands in results at once. -/
theorem C6_double_deadline_jump_witness :
    (updateContestPhase cStale 100).current_phase = Phase.results :=
  C6_double_deadline_jump cStale 100 rfl (by decide) (by decide)

/-- C2: during voting phase a submitted ballot is accepted (no validation
error) exactly when it has at most 3 selections, every rank lies in
\x7b1, 2, 3\x7d, no rank repeats, no entry repeats, and every referenced entry
belongs to this contest; when it is accepted the stored ballot rows become
the delete-then-insert replacement, otherwise the vote table is untouched. -/
theorem C2_ballot_validation (db : DB) (slug voter : String) (votes : List BallotItem)
    (now : Int) (c : Contest) (db1 : DB)
    (h : getContestWithPhase db slug now = (some c, db1))
    (hp : c.current_phase = Phase.voting) :
    ((castVote db slug voter votes now).1 = none ↔
      (votes.length ≤ 3
       ∧ (∀ b ∈ votes, b.rank = 1 ∨ b.rank = 2 ∨ b.rank = 3)
       ∧ (votes.map BallotItem.rank).Nodup
       ∧ (votes.map BallotItem.entryId).Nodup
       ∧ ∀ b ∈ votes, ∃ e ∈ db1.entries, e.id = b.entryId ∧ e.contest_id = c.id))
    ∧ (castVote db slug voter votes now).2.votes
        = (if validateBallot db1.entries c.id votes = none
           then (db1.votes.filter fun v => !(v.contest_id == c.id && v.voter_id == voter))
                ++ votes.map (toVote c.id voter)
           else db1.votes) := by
  have hred := castVote_voting_eq db slug voter votes now c db1 h hp
  cases hv : validateBallot db1.entries c.id votes with
  | some e =>
    simp only [hv] at hred
    refine ⟨?_, ?_⟩
    · rw [hred]
      constructor
      · intro hx
        exact absurd hx (by simp)
      · intro hrhs
        have hnone := (validateBallot_none_iff db1.entries c.id votes).mpr hrhs
        rw [hv] at hnone
        exact absurd hnone (by simp)
    · rw [hred]
      simp
  | none =>
    simp only [hv] at hred
    refine ⟨?_, ?_⟩
    · rw [hred]
      exact iff_of_true rfl ((validateBallot_none_iff db1.entries c.id votes).mp hv)
    · rw [hred]
      simp

/-- C2 witness: with the in-window contest and entries of dbOpen, the ballot
that ranks entry 1 first is accepted by castVote. -/
theorem C2_ballot_validation_witness :
    (castVote dbOpen "c" "alice" [{ entryId := 1, rank := 1 }] 5).1 = none :=
  (C2_ballot_validation dbOpen "c" "alice" [{ entryId := 1, rank := 1 }] 5 cOpen dbOpen
    (by decide) rfl).1.mpr
    (by refine ⟨by decide, by decide, by decide, by decide, ?_⟩
        intro b hb
        refine ⟨eOne, by decide, ?_, ?_⟩ <;> rcases List.mem_singleton.mp hb <;> rfl)

/-- C4: after a successful vote submission, the voter's stored ballot for the
contest is exactly the newly submitted (entry, rank) pairs: the prior ballot
is fully replaced and a later getVoterBallot returns only the new ranks. -/
theorem C4_ballot_replacement (db : DB) (slug voter : String) (votes : List BallotItem)
    (now now2 : Int)
    (h : (castVote db slug voter votes now).1 = none) :
    (getVoterBallot (castVote db slug voter votes now).2 slug voter now2).1
      = some votes := by
  rcases hX : getContestWithPhase db slug now with ⟨o, d⟩
  cases o with
  | none =>
    have hbad : (castVote db slug voter votes now).1 = some VoteError.notFound := by
      unfold castVote
      rw [hX]
    rw [h] at hbad
    exact absurd hbad (by simp)
  | some c =>
    by_cases hp : c.current_phase = Phase.voting
    · have hred := castVote_voting_eq db slug voter votes now c d hX hp
      cases hv : validateBallot d.entries c.id votes with
      | some e =>
        simp only [hv] at hred
        rw [hred] at h
        exact absurd h (by simp)
      | none =>
        simp only [hv] at hred
        obtain ⟨hfd, -, -⟩ := getContestWithPhase_inv db slug now c d hX
        have hfd2 : findContest (castVote db slug voter votes now).2 slug = some c := by
          rw [hred]
          exact hfd
        rw [getVoterBallot_eval _ slug voter now2 c hfd2, hred]
        exact congrArg some (replaced_ballot c.id voter d.votes votes)
    · have hbad : (castVote db slug voter votes now).1 = some VoteError.phaseClosed := by
        unfold castVote
        rw [hX]
        simp only []
        rw [if_pos hp]
      rw [h] at hbad
      exact absurd hbad (by simp)

/-- C4 witness: alice had entry 2 ranked 2 in dbOpen; after submitting the
ballot \x7bentry 1, rank 1\x7d, getVoterBallot returns exactly that new ballot. -/
theorem C4_ballot_replacement_witness :
    (getVoterBallot (castVote dbOpen "c" "alice" [{ entryId := 1, rank := 1 }] 5).2
      "c" "alice" 6).1 = some [{ entryId := 1, rank := 1 }] :=
  C4_ballot_replacement dbOpen "c" "alice" [{ entryId := 1, rank := 1 }] 5 6 (by decide)

/-- C10: during voting phase an empty votes array is accepted: it passes all
ballot checks, the delete step removes the voter's whole prior ballot, no row
is inserted, and a later getVoterBallot returns the empty ballot. -/
theorem C10_empty_ballot_clears (db : DB) (slug voter : String) (now now2 : Int)
    (c : Contest) (db1 : DB)
    (h : getContestWithPhase db slug now = (some c, db1))
    (hp : c.current_phase = Phase.voting) :
    (castVote db slug voter [] now).1 = none
    ∧ (castVote db slug voter [] now).2.votes
        = db1.votes.filter (fun v => !(v.contest_id == c.id && v.voter_id == voter))
    ∧ (getVoterBallot (castVote db slug voter [] now).2 slug voter now2).1
        = some [] := by
  have hred := castVote_voting_eq db slug voter [] now c db1 h hp
  have hv : validateBallot db1.entries c.id [] = none := rfl
  simp only [hv, List.map_nil, List.append_nil] at hred
  refine ⟨by rw [hred], by rw [hred], ?_⟩
  obtain ⟨hfd, -, -⟩ := getContestWithPhase_inv db slug now c db1 h
  have hfd2 : findContest (castVote db slug voter [] now).2 slug = some c := by
    rw [hred]
    exact hfd
  rw [getVoterBallot_eval _ slug voter now2 c hfd2, hred]
  simp only []
  rw [filter_not_filter]
  rfl

/-- C10 witness: submitting the empty ballot wipes the prior alice ballot of
dbOpen and the follow-up read returns an empty ballot. -/
theorem C10_empty_ballot_clears_witness :
    (getVoterBallot (castVote dbOpen "c" "alice" [] 5).2 "c" "alice" 6).1 = some [] :=
  (C10_empty_ballot_clears dbOpen "c" "alice" 5 6 cOpen dbOpen (by decide) rfl).2.2

/-- C7: when the resolved phase is submission, the non-admin entry listing
returns the payload holding an empty entry list and the entry count only; no
submitter name and no image reference occurs anywhere in the payload. -/
theorem C7_submission_hides_entries (db : DB) (slug : String) (now : Int)
    (ks : Nat → Int) (c : Contest) (db1 : DB)
    (h : getContestWithPhase db slug now = (some c, db1))
    (hp : c.current_phase = Phase.submission) :
    (listEntries db slug now ks).1
      = some (EntriesPayload.submissionView []
          ((db1.entries.filter fun e => e.contest_id == c.id).length) Phase.submission)
    ∧ payloadNames (EntriesPayload.submissionView []
        ((db1.entries.filter fun e => e.contest_id == c.id).length) Phase.submission) = []
    ∧ payloadImages (EntriesPayload.submissionView []
        ((db1.entries.filter fun e => e.contest_id == c.id).length) Phase.submission) = [] := by
  have hlen : (entriesOf db1 c.id).length
      = (db1.entries.filter fun e => e.contest_id == c.id).length :=
    (entriesOf_perm db1 c.id).length_eq
  refine ⟨?_, rfl, rfl⟩
  simp only [listEntries, h, hp, hlen]

/-- C7 witness: the submission-window store dbEarly holds one entry; the
listing exposes only the count 1 and completely empty entry data. -/
theorem C7_submission_hides_entries_witness :
    (listEntries dbEarly "c" 5 (fun _ => 0)).1
      = some (EntriesPayload.submissionView []
          ((dbEarly.entries.filter fun e => e.contest_id == cEarly.id).length)
          Phase.submission) :=
  (C7_submission_hides_entries dbEarly "c" 5 (fun _ => 0) cEarly dbEarly
    (by decide) rfl).1

/-- C8: when the resolved phase is voting, the non-admin entry listing is the
shuffled projection: it is a permutation of the name-stripped contest entries,
carries no submitter-name field, and is computed from the stripped entries
alone, so two entry tables differing only in submitter names yield exactly the
same possible payloads under every draw of sort keys. -/
theorem C8_voting_anonymous_shuffle (db : DB) (slug : String) (now : Int)
    (ks : Nat → Int) (c : Contest) (db1 : DB)
    (h : getContestWithPhase db slug now = (some c, db1))
    (hp : c.current_phase = Phase.voting) :
    (listEntries db slug now ks).1
      = some (EntriesPayload.votingView (shuffleStrip (entriesOf db1 c.id) ks) Phase.voting)
    ∧ (shuffleStrip (entriesOf db1 c.id) ks).Perm
        ((db1.entries.filter fun e => e.contest_id == c.id).map stripName)
    ∧ payloadNames (EntriesPayload.votingView (shuffleStrip (entriesOf db1 c.id) ks)
        Phase.voting) = []
    ∧ ∀ (es1 es2 : List Entry) (ks2 : Nat → Int),
        es1.map stripName = es2.map stripName → shuffleStrip es1 ks2 = shuffleStrip es2 ks2 := by
  refine ⟨by simp only [listEntries, h, hp], ?_, rfl, ?_⟩
  · exact (shuffleStrip_perm _ ks).trans ((entriesOf_perm db1 c.id).map stripName)
  · intro es1 es2 ks2 hmap
    rw [shuffleStrip_eq_shuffleKeys, shuffleStrip_eq_shuffleKeys, hmap]

/-- C8 witness: the voting-window store dbOpen lists its two entries through
the shuffled, name-free projection. -/
theorem C8_voting_anonymous_shuffle_witness :
    (listEntries dbOpen "c" 5 (fun _ => 0)).1
      = some (EntriesPayload.votingView (shuffleStrip (entriesOf dbOpen cOpen.id)
          (fun _ => 0)) Phase.voting) :=
  (C8_voting_anonymous_shuffle dbOpen "c" 5 (fun _ => 0) cOpen dbOpen
    (by decide) rfl).1

/-- C9: an admin update whose supplied voting deadline is less than or equal
to its supplied submission deadline is rejected with the deadline-order error
and the store is returned entirely unchanged: neither deadline nor any forced
phase from the same request is applied. -/
theorem C9_deadline_order_rejected (db : DB) (slug : String) (req : AdminUpdateReq)
    (c : Contest) (sd vd : Int)
    (hf : findContest db slug = some c)
    (hsd : req.submissionDeadline = some sd)
    (hvd : req.votingDeadline = some vd)
    (hord : vd ≤ sd) :
    adminUpdate db slug true req = (some AdminError.invalidDeadlineOrder, db) := by
  simp only [adminUpdate, hf, hsd, hvd, Bool.not_true, Bool.false_eq_true, if_false]
  rw [if_pos hord]

/-- C9 witness: the request setting submission deadline 50, voting deadline
20 and a forced phase is rejected and dbEarly is untouched. -/
theorem C9_deadline_order_rejected_witness :
    adminUpdate dbEarly "c" true
      { submissionDeadline := some 50, votingDeadline := some 20
      , currentPhase := some "results" }
      = (some AdminError.invalidDeadlineOrder, dbEarly) :=
  C9_deadline_order_rejected dbEarly "c"
    { submissionDeadline := some 50, votingDeadline := some 20
    , currentPhase := some "results" }
    cEarly 50 20 (by decide) rfl rfl (by decide)

/-- C3 counterexample: the admin entry-listing route reads the contest with a
plain SELECT and no phase resolution.  In dbStale the stored phase is still
submission although a resolution at time 100 would give results; the admin
listing completes normally (returning the full entry rows) and leaves the
store byte-for-byte unchanged, so no recomputation of the effective phase
happened on this contest read, contradicting the claim for admin operations. -/
theorem C3_admin_read_skips_resolver_cex :
    (adminListEntries dbStale "c" true).1 = Except.ok [eStale]
    ∧ (adminListEntries dbStale "c" true).2 = dbStale
    ∧ cStale.current_phase = Phase.submission
    ∧ resolvePhaseVal cStale 100 = Phase.results := by
  exact ⟨rfl, rfl, rfl, rfl⟩

/-- C3 (amended): the five public operations (getContest, listEntries,
createEntry, castVote, getVoterBallot) route every contest read through the
Phase Resolver first — afterwards the stored record carries the resolved
phase — while the admin operations read the contest directly: admin verify
and admin entry listing leave the store unchanged, admin delete-entry leaves
every contest row unchanged, and an admin update carrying no forced phase
never changes any stored phase. -/
theorem C3_resolution_scope (db : DB) (slug voter ename img : String) (now : Int)
    (nid eid : Nat) (ks : Nat → Int) (votes : List BallotItem) (pin : Bool)
    (req : AdminUpdateReq) (c : Contest)
    (hf : findContest db slug = some c)
    (hreq : req.currentPhase = none) :
    findContest (getContest db slug now).2 slug = some (updateContestPhase c now)
    ∧ findContest (listEntries db slug now ks).2 slug = some (updateContestPhase c now)
    ∧ findContest (createEntry db slug ename img now nid).2 slug
        = some (updateContestPhase c now)
    ∧ findContest (castVote db slug voter votes now).2 slug
        = some (updateContestPhase c now)
    ∧ findContest (getVoterBallot db slug voter now).2 slug
        = some (updateContestPhase c now)
    ∧ (adminVerify db slug pin).2 = db
    ∧ (adminListEntries db slug pin).2 = db
    ∧ (adminDeleteEntry db slug pin eid).2.contests = db.contests
    ∧ (adminUpdate db slug pin req).2.contests.map Contest.current_phase
        = db.contests.map Contest.current_phase := by
  obtain ⟨-, -, -, hf2⟩ := getContestWithPhase_found db slug now c hf
  have hgc : findContest (getContest db slug now).2 slug
      = some (updateContestPhase c now) := by
    unfold findContest at hf2 ⊢
    rw [getContest_contests]
    exact hf2
  have hle : findContest (listEntries db slug now ks).2 slug
      = some (updateContestPhase c now) := by
    unfold findContest at hf2 ⊢
    rw [listEntries_contests]
    exact hf2
  have hce : findContest (createEntry db slug ename img now nid).2 slug
      = some (updateContestPhase c now) := by
    unfold findContest at hf2 ⊢
    rw [createEntry_contests]
    exact hf2
  have hcv : findContest (castVote db slug voter votes now).2 slug
      = some (updateContestPhase c now) := by
    unfold findContest at hf2 ⊢
    rw [castVote_contests]
    exact hf2
  have hgb : findContest (getVoterBallot db slug voter now).2 slug
      = some (updateContestPhase c now) := by
    unfold findContest at hf2 ⊢
    rw [getVoterBallot_contests]
    exact hf2
  refine ⟨hgc, hle, hce, hcv, hgb, ?_, ?_, ?_, ?_⟩
  · unfold adminVerify
    rw [hf]
    simp only []
    split <;> rfl
  · unfold adminListEntries
    rw [hf]
    simp only []
    split <;> rfl
  · unfold adminDeleteEntry
    rw [hf]
    simp only []
    split
    · rfl
    · split <;> rfl
  · unfold adminUpdate
    rw [hf]
    simp only []
    split
    · rfl
    · rcases req with ⟨osd, ovd, ocp⟩
      simp only at hreq
      subst hreq
      cases osd with
      | none => simp [applyForcedPhase]
      | some sd =>
        cases ovd with
        | none => simp [applyForcedPhase]
        | some vd =>
          simp only []
          split
          · rfl
          · simp [applyForcedPhase, setDeadlines_map_phase]

/-- C3 witness: a getContest read of the submission-window store persists the
resolved phase for the stored contest. -/
theorem C3_resolution_scope_witness :
    findContest (getContest dbEarly "c" 5).2 "c" = some (updateContestPhase cEarly 5) :=
  (C3_resolution_scope dbEarly "c" "v" "nm" "img" 5 7 9 (fun _ => 0) [] true
    { submissionDeadline := none, votingDeadline := none, currentPhase := none }
    cEarly (by decide) rfl).1
